import Mathlib

/-!
# ConsolePauser: a shallow embedding of `src/ConsolePauser.cpp`

`main` launches one child process, waits for it, and prints its execution
time, peak working set and exit code, pausing for a key press before it
returns.  The embedding makes the platform's answers explicit (a `Platform`
record) and turns every call with an observable effect into an entry of a
trace, so that a run of `main` is a pure function from the platform's answers
and the argument vector to a trace and an exit status.

A C string is represented by the sequence of `CHAR`s before its terminator
(`String`, one element per `CHAR`); message text is kept as written in the
source file.
-/

namespace ConsolePauser

/-! ## Windows and CRT primitives used by `main` -/

/-- Modelled from the spec: `MAX_PATH` comes from the Windows headers, which
are not part of the repository; its value 260 makes the command buffer
`MAX_PATH * 2 = 520` `CHAR`s long. -/
def MAX_PATH : Nat := 260

/-- The number of values of a `DWORD` / `unsigned` (32 bits). -/
def DWORD_RANGE : Nat := 4294967296

/-- The number of values of a `LONGLONG` (64 bits). -/
def LONGLONG_RANGE : Int := 18446744073709551616

/-- Two's-complement reduction of an integer to the `LONGLONG` range
`[-2^63, 2^63)`: the value a 64-bit signed register holds after the
operation. -/
def toLONGLONG (x : Int) : Int :=
  (x + 9223372036854775808) % LONGLONG_RANGE - 9223372036854775808

/-- The CRT `strcpy_s(dest, numberOfElements, src)`: the copy succeeds when
`src` and its terminator fit into `numberOfElements` `CHAR`s and leaves `src`
in `dest`; otherwise the invalid-parameter handler is invoked (`none`). -/
def strcpy_s (numberOfElements : Nat) (src : String) : Option String :=
  if src.length < numberOfElements then some src else none

/-- The CRT `strcat_s(dest, numberOfElements, src)`: the append succeeds when
the content of `dest`, `src` and the terminator fit into `numberOfElements`
`CHAR`s and leaves `dest ++ src` in `dest`; otherwise the invalid-parameter
handler is invoked (`none`). -/
def strcat_s (dest : String) (numberOfElements : Nat) (src : String) : Option String :=
  if dest.length + src.length < numberOfElements then some (dest ++ src) else none

/-- The `printf` conversion `%u` of a 32-bit argument: unsigned decimal. -/
def fmt_u (v : Nat) : String :=
  String.mk (Nat.toDigits 10 (v % DWORD_RANGE))

/-- The `printf` conversion `%X` of a 32-bit argument: unsigned hexadecimal
with upper-case letters, no prefix and no padding. -/
def fmt_X (v : Nat) : String :=
  String.mk ((Nat.toDigits 16 (v % DWORD_RANGE)).map Char.toUpper)

/-- The `printf` conversion `%d` of a 32-bit argument: the argument is read
as a signed `int`, so bit patterns from `2^31` on are printed as negative
numbers. -/
def fmt_d (v : Nat) : String :=
  if v % DWORD_RANGE < 2147483648 then String.mk (Nat.toDigits 10 (v % DWORD_RANGE))
  else "-" ++ String.mk (Nat.toDigits 10 (DWORD_RANGE - v % DWORD_RANGE))

/-- The `printf` conversion `%lld`: signed decimal. -/
def fmt_lld (v : Int) : String :=
  if 0 ≤ v then String.mk (Nat.toDigits 10 v.toNat)
  else "-" ++ String.mk (Nat.toDigits 10 (-v).toNat)

/-- The `printf` conversion `%03lld`: signed decimal, padded with zeros
after the sign up to a field width of three characters. -/
def fmt_03lld (v : Int) : String :=
  let sign := if 0 ≤ v then "" else "-"
  let digits := Nat.toDigits 10 v.natAbs
  sign ++ String.mk (List.replicate (3 - sign.length - digits.length) '0' ++ digits)

/-! ## The platform and the trace of a run -/

/-- The two handles of `PROCESS_INFORMATION` that `main` closes. -/
inductive Handle
  | hProcess
  | hThread
  deriving DecidableEq, Repr

/-- The calls of `main` that have an effect outside the program, in the
order in which a run performs them. -/
inductive Effect
  | SetConsoleOutputCP (codePage : Nat)
  | SetConsoleCP (codePage : Nat)
  | printf (text : String)
  | _getch
  | SetConsoleTitleA (title : String)
  | CreateProcessA (commandLine : String)
  | GetLastError
  | QueryPerformanceFrequency
  | QueryPerformanceCounter
  | WaitForSingleObject (h : Handle)
  | GetProcessMemoryInfo (h : Handle)
  | GetExitCodeProcess (h : Handle)
  | CloseHandle (h : Handle)
  deriving DecidableEq, Repr

/-- The answers of the platform during one run.  `Frequency` is the value
stored by `QueryPerformanceFrequency`, which on every supported Windows
version succeeds and is never zero; `StartingTime` and `EndingTime` are the
two readings of `QueryPerformanceCounter`.  `GetProcessMemoryInfo` is the
peak working-set size in bytes (a `SIZE_T`, 64 bits wide on a 64-bit
target) when the query succeeds, and `GetExitCodeProcess` the exit code of
the child (a `DWORD`) when the query succeeds.  `ReturnValue` is declared
without an initialiser: `ReturnValue_uninitialised` is what it holds when the
exit-code query fails. -/
structure Platform where
  CreateProcessA : String → Bool
  GetLastError : Nat
  Frequency : Int
  Frequency_pos : 0 < Frequency
  StartingTime : Int
  EndingTime : Int
  GetProcessMemoryInfo : Option Nat
  GetExitCodeProcess : Option Nat
  ReturnValue_uninitialised : Nat

/-- A run of `main`: the effects performed, in order, and the value `main`
returned.  `exitCode = none` is a run that the CRT terminated inside its
invalid-parameter handler, so that `main` never returned. -/
structure Run where
  trace : List Effect
  exitCode : Option Int
  deriving DecidableEq, Repr

/-! ## `main` -/

/-- `SetupConsole`: both console code pages are set to UTF-8. -/
def SetupConsole : List Effect :=
  [Effect.SetConsoleOutputCP 65001, Effect.SetConsoleCP 65001]

/-- The state of the buffer `Command` during assembly: `history` lists the
content of the buffer after each bounded copy or append that succeeded, in
order, and `Command` is the final content, or `none` when one of the calls
found the buffer too small. -/
structure Assembly where
  history : List String
  Command : Option String
  deriving DecidableEq, Repr

/-- The loop `for (i = 2; i < argc; i++)` of `main`, run on the remaining
arguments `argv[i..argc-1]` with `Command` the current buffer content: each
round appends a space and then the argument. -/
def appendArguments (sizeofCommand : Nat) (Command : String) : List String → Assembly
  | [] => { history := [], Command := some Command }
  | arg :: rest =>
    match strcat_s Command sizeofCommand " " with
    | none => { history := [], Command := none }
    | some c1 =>
      match strcat_s c1 sizeofCommand arg with
      | none => { history := [c1], Command := none }
      | some c2 =>
        let r := appendArguments sizeofCommand c2 rest
        { history := c1 :: c2 :: r.history, Command := r.Command }

/-- Lines 23-30 of `main`: `argv[1]` is copied into the zeroed buffer
`Command` of `MAX_PATH * 2` `CHAR`s and the arguments from `argv[2]` on are
appended. -/
def assembleCommand (argv : List String) : Assembly :=
  match strcpy_s (MAX_PATH * 2) (argv.getD 1 "") with
  | none => { history := [], Command := none }
  | some c0 =>
    let r := appendArguments (MAX_PATH * 2) c0 (argv.drop 2)
    { history := c0 :: r.history, Command := r.Command }

/-- Line 64 of `main`: the elapsed time in microseconds, computed in
`LONGLONG` arithmetic (the difference and the product wrap around, the
division truncates towards zero). -/
def ExecutionTime (StartingTime EndingTime Frequency : Int) : Int :=
  toLONGLONG
    (Int.tdiv (toLONGLONG (toLONGLONG (EndingTime - StartingTime) * 1000000)) Frequency)

/-- Line 67: the execution-time line of the report. -/
def executionTimeLine (ExecutionTime : Int) : String :=
  "\n执行时间：" ++ fmt_lld (Int.tdiv ExecutionTime 1000) ++ "." ++
    fmt_03lld (Int.tmod ExecutionTime 1000) ++ " ms"

/-- Line 68: the peak-memory line of the report; the size is shifted right by
ten bits and cast to `unsigned`. -/
def peakMemoryLine (PeakWorkingSetSize : Nat) : String :=
  "\n峰值内存使用：" ++ fmt_u ((PeakWorkingSetSize >>> 10) % DWORD_RANGE) ++ " KB"

/-- Line 69: the exit-code line of the report. -/
def returnValueLine (ReturnValue : Nat) : String :=
  "\n程序返回值：" ++ fmt_u ReturnValue ++ " (0x" ++ fmt_X ReturnValue ++ ")"

/-- Line 18: the usage text; `argv[0]` is the null pointer when the argument
vector is empty, which `printf` renders as `(null)`. -/
def usageText (argv : List String) : String :=
  "用法：\n" ++ argv.headD "(null)" ++ " <文件名> <参数>\n请按任意键继续..."

/-- Line 46: the text printed when the process could not be created. -/
def launchFailureText (Command : String) (error : Nat) : String :=
  "\n无法启动进程：" ++ Command ++ "\n错误代码: " ++ fmt_d error ++ "\n请按任意键继续..."

/-- Lines 51-71 of `main`: the effects after a successful `CreateProcessA`. -/
def superviseChild (P : Platform) : List Effect :=
  let PeakWorkingSetSize := P.GetProcessMemoryInfo.getD 0
  let ReturnValue := P.GetExitCodeProcess.getD P.ReturnValue_uninitialised
  [ Effect.QueryPerformanceFrequency,
    Effect.QueryPerformanceCounter,
    Effect.WaitForSingleObject Handle.hProcess,
    Effect.QueryPerformanceCounter,
    Effect.GetProcessMemoryInfo Handle.hProcess,
    Effect.GetExitCodeProcess Handle.hProcess,
    Effect.CloseHandle Handle.hProcess,
    Effect.CloseHandle Handle.hThread,
    Effect.printf "\n-----------------------------------------------",
    Effect.printf (executionTimeLine (ExecutionTime P.StartingTime P.EndingTime P.Frequency)),
    Effect.printf (peakMemoryLine PeakWorkingSetSize),
    Effect.printf (returnValueLine ReturnValue),
    Effect.printf "\n请按任意键继续...",
    Effect._getch ]

/-- The function `main` of `ConsolePauser.cpp`; `argc` is the length of
`argv`. -/
def main (P : Platform) (argv : List String) : Run :=
  if argv.length < 2 then
    { trace := SetupConsole ++ [Effect.printf (usageText argv), Effect._getch],
      exitCode := some (-1) }
  else
    match (assembleCommand argv).Command with
    | none => { trace := SetupConsole, exitCode := none }
    | some Command =>
      if !P.CreateProcessA Command then
        { trace := SetupConsole ++
            [ Effect.SetConsoleTitleA Command, Effect.CreateProcessA Command,
              Effect.GetLastError,
              Effect.printf (launchFailureText Command P.GetLastError),
              Effect._getch ],
          exitCode := some (-1) }
      else
        { trace := SetupConsole ++
            [Effect.SetConsoleTitleA Command, Effect.CreateProcessA Command] ++
            superviseChild P,
          exitCode := some 0 }

/-! ## The specification's wording, and readers for printed numerals -/

/-- The command line as the specification words it for `assemble_command`:
the tokens in their order, `t1 + " " + t2 + ... + " " + tn`. -/
def joinWithSpaces : List String → String
  | [] => ""
  | [t] => t
  | t :: t' :: ts => t ++ " " ++ joinWithSpaces (t' :: ts)

/-- Every token of the list preceded by one space, `" " + t1 + " " + t2 ...`:
what the loop of `main` appends to `argv[1]`. -/
def spaced : List String → String
  | [] => ""
  | t :: ts => " " ++ t ++ spaced ts

/-- The joined length as the claim on the buffer counts it: the sum of
the token lengths plus one separating space between adjacent tokens. -/
def joinedLength (tokens : List String) : Nat :=
  (tokens.map String.length).sum + (tokens.length - 1)

/-- The value of a digit character `0-9`, `A-F`. -/
def digitValue (c : Char) : Nat :=
  if c.toNat < 58 then c.toNat - 48 else c.toNat - 55

/-- The number a numeral denotes in the given base, most significant digit
first. -/
def readNumeral (base : Nat) (numeral : String) : Nat :=
  numeral.data.foldl (fun acc c => acc * base + digitValue c) 0

/-- A digit character of the given base: `0-9` or `A-F`, of value below the
base. -/
def IsDigit (base : Nat) (c : Char) : Prop :=
  digitValue c < base ∧
    ((48 ≤ c.toNat ∧ c.toNat < 58) ∨ (65 ≤ c.toNat ∧ c.toNat < 71))

/-- The string is the numeral of `n` in the given base without padding: it
is not empty, consists of digits of the base, denotes `n`, and starts with
the digit `0` only when it is the single digit `0`. -/
def IsNumeralOf (base : Nat) (numeral : String) (n : Nat) : Prop :=
  numeral.data ≠ [] ∧ (∀ c ∈ numeral.data, IsDigit base c) ∧
    readNumeral base numeral = n ∧
    (numeral.data.head? = some '0' → numeral.data = ['0'])

/-- The elapsed-time rendering that the specification's `report` describes:
whole seconds before the dot and the remaining milliseconds, three digits,
after it, for an elapsed time given in microseconds. -/
def secondsDotMilliseconds (microseconds : Int) : String :=
  fmt_lld (microseconds / 1000000) ++ "." ++ fmt_03lld (microseconds / 1000 % 1000)

/-! ## Concrete runs -/

/-- A platform on which every process creation succeeds: a 10 MHz counter,
a child that ran for 123.456 ms, used 5 000 000 bytes and returned 5. -/
def samplePlatform : Platform :=
  { CreateProcessA := fun _ => true
    GetLastError := 0
    Frequency := 10000000
    Frequency_pos := by decide
    StartingTime := 0
    EndingTime := 1234567
    GetProcessMemoryInfo := some 5000000
    GetExitCodeProcess := some 5
    ReturnValue_uninitialised := 0 }

/-- A platform that rejects every process creation with the given error
code. -/
def rejectingPlatform (error : Nat) : Platform :=
  { samplePlatform with CreateProcessA := fun _ => false, GetLastError := error }

/-- The same platform with a child that exits with the given code. -/
def withExitCode (P : Platform) (code : Nat) : Platform :=
  { P with GetExitCodeProcess := some code }

/-- A platform on which the child returns the given exit code. -/
def platformReturning (code : Nat) : Platform :=
  withExitCode samplePlatform code

/-- A platform with the given counter readings and frequency 10 MHz. -/
def platformTiming (StartingTime EndingTime : Int) : Platform :=
  { samplePlatform with StartingTime := StartingTime, EndingTime := EndingTime }

/-- A platform on which the child has the given peak working-set size. -/
def platformPeak (bytes : Nat) : Platform :=
  { samplePlatform with GetProcessMemoryInfo := some bytes }

/-- A token of 520 `CHAR`s. -/
def longToken : String := String.mk (List.replicate 520 'a')

/-! ## Command assembly -/

theorem length_space : (" " : String).length = 1 := rfl

theorem joinWithSpaces_cons (t : String) (ts : List String) :
    joinWithSpaces (t :: ts) = t ++ spaced ts := by
  induction ts generalizing t with
  | nil => simp [joinWithSpaces, spaced]
  | cons u us ih => simp [joinWithSpaces, spaced, ih, String.append_assoc]

theorem length_spaced (ts : List String) :
    (spaced ts).length = (ts.map String.length).sum + ts.length := by
  induction ts with
  | nil => simp [spaced]
  | cons u us ih => simp [spaced, String.length_append, ih, length_space]; omega

theorem length_joinWithSpaces (t : String) (ts : List String) :
    (joinWithSpaces (t :: ts)).length = joinedLength (t :: ts) := by
  simp [joinWithSpaces_cons, String.length_append, length_spaced, joinedLength]
  omega

/-- When the buffer content and everything the loop appends fit below the
capacity, every append succeeds. -/
theorem appendArguments_fits (cap : Nat) (rest : List String) :
    ∀ cmd : String, cmd.length + (spaced rest).length < cap →
      (appendArguments cap cmd rest).Command = some (cmd ++ spaced rest) ∧
      (appendArguments cap cmd rest).history.length = 2 * rest.length ∧
      ∀ b ∈ (appendArguments cap cmd rest).history, b.length < cap := by
  induction rest with
  | nil => intro cmd _; simp [appendArguments, spaced]
  | cons arg rest ih =>
    intro cmd h
    simp only [spaced, String.length_append, length_space] at h
    have h1 : cmd.length + (" " : String).length < cap := by rw [length_space]; omega
    have h2 : (cmd ++ " ").length + arg.length < cap := by
      rw [String.length_append, length_space]; omega
    have h3 : (cmd ++ " " ++ arg).length + (spaced rest).length < cap := by
      simp only [String.length_append, length_space]; omega
    obtain ⟨hc, hl, hb⟩ := ih (cmd ++ " " ++ arg) h3
    simp only [appendArguments, strcat_s, h1, h2, if_true]
    refine ⟨?_, ?_, ?_⟩
    · rw [hc]; simp [spaced, String.append_assoc]
    · simp [hl]; omega
    · intro b hmem
      simp only [List.mem_cons] at hmem
      rcases hmem with rfl | rfl | hmem
      · rw [String.length_append, length_space]; omega
      · simp only [String.length_append, length_space]; omega
      · exact hb b hmem

/-- When the buffer content and everything the loop appends need the
capacity or more, one of the appends finds the buffer too small. -/
theorem appendArguments_overflow (cap : Nat) (rest : List String) :
    ∀ cmd : String, cmd.length < cap → cap ≤ cmd.length + (spaced rest).length →
      (appendArguments cap cmd rest).Command = none := by
  induction rest with
  | nil => intro cmd h1 h2; simp [spaced] at h2; omega
  | cons arg rest ih =>
    intro cmd hlt h
    simp only [spaced, String.length_append, length_space] at h
    simp only [appendArguments, strcat_s]
    by_cases h1 : cmd.length + (" " : String).length < cap
    · by_cases h2 : (cmd ++ " ").length + arg.length < cap
      · simp only [h1, h2, if_true]
        apply ih
        · simpa [String.length_append] using h2
        · simp only [String.length_append, length_space]; omega
      · rw [String.length_append] at h2
        simp [h1, h2]
    · simp [h1]

theorem assembleCommand_fits (a0 t : String) (ts : List String)
    (h : (joinWithSpaces (t :: ts)).length < MAX_PATH * 2) :
    (assembleCommand (a0 :: t :: ts)).Command = some (joinWithSpaces (t :: ts)) ∧
    (assembleCommand (a0 :: t :: ts)).history.length = 2 * ts.length + 1 ∧
    ∀ b ∈ (assembleCommand (a0 :: t :: ts)).history, b.length < MAX_PATH * 2 := by
  rw [joinWithSpaces_cons, String.length_append] at h
  have ht : t.length < MAX_PATH * 2 := by omega
  obtain ⟨hc, hl, hb⟩ := appendArguments_fits (MAX_PATH * 2) ts t h
  simp only [assembleCommand, strcpy_s, List.getD_cons_succ, List.getD_cons_zero, ht, if_true,
    List.drop_succ_cons, List.drop_zero, joinWithSpaces_cons]
  refine ⟨hc, by simp [hl], ?_⟩
  intro b hmem
  simp only [List.mem_cons] at hmem
  rcases hmem with rfl | hmem
  · exact ht
  · exact hb b hmem

theorem assembleCommand_overflow (a0 t : String) (ts : List String)
    (h : MAX_PATH * 2 ≤ (joinWithSpaces (t :: ts)).length) :
    (assembleCommand (a0 :: t :: ts)).Command = none := by
  rw [joinWithSpaces_cons, String.length_append] at h
  simp only [assembleCommand, strcpy_s, List.getD_cons_succ, List.getD_cons_zero,
    List.drop_succ_cons, List.drop_zero]
  by_cases ht : t.length < MAX_PATH * 2
  · simp only [ht, if_true]
    exact appendArguments_overflow (MAX_PATH * 2) ts t ht h
  · simp [ht]

/-! ## The four kinds of run -/

theorem main_usage (P : Platform) (argv : List String) (h : argv.length < 2) :
    main P argv =
      { trace := SetupConsole ++ [Effect.printf (usageText argv), Effect._getch],
        exitCode := some (-1) } := by
  simp [main, h]

theorem main_terminated (P : Platform) (argv : List String) (h : 2 ≤ argv.length)
    (hc : (assembleCommand argv).Command = none) :
    main P argv = { trace := SetupConsole, exitCode := none } := by
  have h2 : ¬ argv.length < 2 := by omega
  simp [main, h2, hc]

theorem main_launch_failure (P : Platform) (argv : List String) (Command : String)
    (h : 2 ≤ argv.length) (hc : (assembleCommand argv).Command = some Command)
    (hf : P.CreateProcessA Command = false) :
    main P argv =
      { trace := SetupConsole ++
          [ Effect.SetConsoleTitleA Command, Effect.CreateProcessA Command,
            Effect.GetLastError,
            Effect.printf (launchFailureText Command P.GetLastError),
            Effect._getch ],
        exitCode := some (-1) } := by
  have h2 : ¬ argv.length < 2 := by omega
  simp [main, h2, hc, hf]

theorem main_success (P : Platform) (argv : List String) (Command : String)
    (h : 2 ≤ argv.length) (hc : (assembleCommand argv).Command = some Command)
    (hs : P.CreateProcessA Command = true) :
    main P argv =
      { trace := SetupConsole ++
          [Effect.SetConsoleTitleA Command, Effect.CreateProcessA Command] ++
          superviseChild P,
        exitCode := some 0 } := by
  have h2 : ¬ argv.length < 2 := by omega
  simp [main, h2, hc, hs]

/-! ## Printed numerals -/

theorem digitValue_digitChar (d : Nat) (h : d < 10) :
    digitValue (Nat.digitChar d) = d := by
  interval_cases d <;> decide

theorem digitValue_digitChar_upper (d : Nat) (h : d < 16) :
    digitValue (Nat.digitChar d).toUpper = d := by
  interval_cases d <;> decide

theorem digitChar_range (d : Nat) (h : d < 10) :
    48 ≤ (Nat.digitChar d).toNat ∧ (Nat.digitChar d).toNat < 58 := by
  interval_cases d <;> decide

theorem digitChar_upper_range (d : Nat) (h : d < 16) :
    (48 ≤ (Nat.digitChar d).toUpper.toNat ∧ (Nat.digitChar d).toUpper.toNat < 58) ∨
    (65 ≤ (Nat.digitChar d).toUpper.toNat ∧ (Nat.digitChar d).toUpper.toNat < 71) := by
  interval_cases d <;> decide

/-- Reading back the digits produced by `Nat.toDigitsCore`, through any
reading `g` of a character that inverts `Nat.digitChar` below the base. -/
theorem foldl_toDigitsCore (b : Nat) (hb : 2 ≤ b) (g : Char → Nat)
    (hg : ∀ d, d < b → g (Nat.digitChar d) = d) (fuel : Nat) :
    ∀ (n : Nat) (ds : List Char), n < fuel →
      (Nat.toDigitsCore b fuel n ds).foldl (fun acc c => acc * b + g c) 0 =
        ds.foldl (fun acc c => acc * b + g c) n := by
  induction fuel with
  | zero => intro n ds h; omega
  | succ fuel ih =>
    intro n ds h
    have hmod : n % b < b := Nat.mod_lt _ (by omega)
    simp only [Nat.toDigitsCore]
    by_cases h0 : n / b = 0
    · have hn : n < b := (Nat.div_eq_zero_iff (by omega)).mp h0
      rw [Nat.mod_eq_of_lt hn]
      simp [h0, hg _ hn]
    · have hlt : n / b < fuel := by
        have : n / b < n := Nat.div_lt_self (by
          rcases Nat.eq_zero_or_pos n with h' | h'
          · simp [h'] at h0
          · exact h') hb
        omega
      simp only [h0, if_false]
      rw [ih (n / b) _ hlt]
      simp [hg _ hmod, Nat.div_add_mod']

theorem toDigitsCore_forall (b : Nat) (hb : 2 ≤ b) (p : Char → Prop)
    (hp : ∀ d, d < b → p (Nat.digitChar d)) (fuel : Nat) :
    ∀ (n : Nat) (ds : List Char), (∀ c ∈ ds, p c) →
      ∀ c ∈ Nat.toDigitsCore b fuel n ds, p c := by
  induction fuel with
  | zero => intro n ds h; simpa [Nat.toDigitsCore] using h
  | succ fuel ih =>
    intro n ds h
    have hmod : n % b < b := Nat.mod_lt _ (by omega)
    have hds : ∀ c ∈ Nat.digitChar (n % b) :: ds, p c := by
      intro c hc
      rcases List.mem_cons.mp hc with rfl | hc
      · exact hp _ hmod
      · exact h c hc
    simp only [Nat.toDigitsCore]
    by_cases h0 : n / b = 0
    · simpa [h0] using hds
    · simp only [h0, if_false]
      exact ih (n / b) _ hds

/-- The digits of a positive number start with a digit that is not zero. -/
theorem toDigitsCore_head (b : Nat) (hb : 2 ≤ b) (fuel : Nat) :
    ∀ (n : Nat) (ds : List Char), n < fuel → 0 < n →
      ∃ d rest, 0 < d ∧ d < b ∧ Nat.toDigitsCore b fuel n ds = Nat.digitChar d :: rest := by
  induction fuel with
  | zero => intro n ds h; omega
  | succ fuel ih =>
    intro n ds h hn
    simp only [Nat.toDigitsCore]
    by_cases h0 : n / b = 0
    · have hlt : n < b := (Nat.div_eq_zero_iff (by omega)).mp h0
      exact ⟨n, ds, hn, hlt, by simp [h0, Nat.mod_eq_of_lt hlt]⟩
    · have hlt : n / b < fuel := by
        have : n / b < n := Nat.div_lt_self hn hb
        omega
      simp only [h0, if_false]
      exact ih (n / b) _ hlt (Nat.pos_of_ne_zero h0)

theorem foldl_toDigits (b : Nat) (hb : 2 ≤ b) (g : Char → Nat)
    (hg : ∀ d, d < b → g (Nat.digitChar d) = d) (n : Nat) :
    (Nat.toDigits b n).foldl (fun acc c => acc * b + g c) 0 = n := by
  simpa [Nat.toDigits] using foldl_toDigitsCore b hb g hg (n + 1) n [] (by omega)

theorem toDigits_ne_nil (b : Nat) (hb : 2 ≤ b) (n : Nat) : Nat.toDigits b n ≠ [] := by
  rcases Nat.eq_zero_or_pos n with rfl | hn
  · simp [Nat.toDigits, Nat.toDigitsCore]
  · obtain ⟨d, rest, -, -, h⟩ := toDigitsCore_head b hb (n + 1) n [] (by omega) hn
    simp [Nat.toDigits, h]

/-- The decimal digits of `n` form the unpadded decimal numeral of `n`. -/
theorem isNumeralOf_decimal (n : Nat) : IsNumeralOf 10 (String.mk (Nat.toDigits 10 n)) n := by
  refine ⟨toDigits_ne_nil 10 (by decide) n, ?_, ?_, ?_⟩
  · apply toDigitsCore_forall 10 (by decide) (IsDigit 10)
    · intro d hd
      exact ⟨by rw [digitValue_digitChar d hd]; exact hd, Or.inl (digitChar_range d hd)⟩
    · simp
  · exact foldl_toDigits 10 (by decide) digitValue digitValue_digitChar n
  · rcases Nat.eq_zero_or_pos n with rfl | hn
    · intro _; rfl
    · obtain ⟨d, rest, hd0, hd, h⟩ := toDigitsCore_head 10 (by decide) (n + 1) n [] (by omega) hn
      intro hhead
      exfalso
      simp only [Nat.toDigits, h, List.head?_cons, Option.some.injEq] at hhead
      interval_cases d <;> revert hhead <;> decide

/-- The upper-case hexadecimal digits of `n` form the unpadded hexadecimal
numeral of `n`. -/
theorem isNumeralOf_hexadecimal (n : Nat) :
    IsNumeralOf 16 (String.mk ((Nat.toDigits 16 n).map Char.toUpper)) n := by
  refine ⟨by simpa using toDigits_ne_nil 16 (by decide) n, ?_, ?_, ?_⟩
  · intro c hc
    obtain ⟨c0, hc0, rfl⟩ := List.mem_map.mp hc
    refine toDigitsCore_forall 16 (by decide) (fun c => IsDigit 16 c.toUpper) ?_ (n + 1) n []
      (by simp) c0 hc0
    intro d hd
    exact ⟨by rw [digitValue_digitChar_upper d hd]; exact hd, digitChar_upper_range d hd⟩
  · simp only [readNumeral, List.foldl_map]
    exact foldl_toDigits 16 (by decide) (fun c => digitValue c.toUpper)
      digitValue_digitChar_upper n
  · rcases Nat.eq_zero_or_pos n with rfl | hn
    · intro _; rfl
    · obtain ⟨d, rest, hd0, hd, h⟩ := toDigitsCore_head 16 (by decide) (n + 1) n [] (by omega) hn
      intro hhead
      exfalso
      simp only [Nat.toDigits, h, List.map_cons, List.head?_cons, Option.some.injEq] at hhead
      interval_cases d <;> revert hhead <;> decide

theorem foldl_replicate_zero (b m acc0 : Nat) (h : acc0 = 0) :
    (List.replicate m '0').foldl (fun acc c => acc * b + digitValue c) acc0 = 0 := by
  subst h
  induction m with
  | zero => rfl
  | succ m ih => simpa [List.replicate_succ, digitValue] using ih

/-- The conversion `%03lld` of a value from 0 to 999 prints exactly three
decimal digits that denote the value. -/
theorem fmt_03lld_three_digits (k : Nat) (hk : k < 1000) :
    (fmt_03lld (k : Int)).length = 3 ∧ (∀ c ∈ (fmt_03lld (k : Int)).data, IsDigit 10 c) ∧
      readNumeral 10 (fmt_03lld (k : Int)) = k := by
  have hlen : (Nat.toDigits 10 k).length ≤ 3 :=
    Nat.toDigitsCore_length 10 (by decide) (k + 1) k 3 (by simpa using hk) (by decide)
  have hnum := isNumeralOf_decimal k
  have hpos : (0 : Int) ≤ (k : Int) := Int.ofNat_nonneg k
  have hshape : fmt_03lld (k : Int) =
      String.mk (List.replicate (3 - (Nat.toDigits 10 k).length) '0' ++ Nat.toDigits 10 k) := by
    simp [fmt_03lld]
  rw [hshape]
  refine ⟨?_, ?_, ?_⟩
  · simp only [String.length, List.length_append, List.length_replicate]; omega
  · intro c hc
    rcases List.mem_append.mp hc with hc | hc
    · rw [List.eq_of_mem_replicate hc]
      exact ⟨by decide, Or.inl (by decide)⟩
    · exact hnum.2.1 c hc
  · simp only [readNumeral, List.foldl_append]
    rw [foldl_replicate_zero 10 _ 0 rfl]
    exact hnum.2.2.1

/-! ## Elapsed time -/

theorem toLONGLONG_of_range (x : Int) (h0 : -9223372036854775808 ≤ x)
    (h1 : x < 9223372036854775808) : toLONGLONG x = x := by
  simp only [toLONGLONG, LONGLONG_RANGE]
  omega

/-- Within the range in which the product by 1 000 000 fits a `LONGLONG`, the
computation of line 64 yields the mathematical quotient. -/
theorem ExecutionTime_exact (s e f : Int) (hse : s ≤ e)
    (hfit : (e - s) * 1000000 < 9223372036854775808) (hf : 0 < f) :
    ExecutionTime s e f = (e - s) * 1000000 / f := by
  have hd : 0 ≤ e - s := by omega
  have hp : 0 ≤ (e - s) * 1000000 := by omega
  have hq0 : 0 ≤ (e - s) * 1000000 / f := Int.ediv_nonneg hp (le_of_lt hf)
  have hq1 : (e - s) * 1000000 / f ≤ (e - s) * 1000000 := Int.ediv_le_self _ hp
  unfold ExecutionTime
  rw [toLONGLONG_of_range (e - s) (by omega) (by omega),
    toLONGLONG_of_range ((e - s) * 1000000) (by omega) hfit,
    Int.tdiv_eq_ediv hp (le_of_lt hf),
    toLONGLONG_of_range _ (by omega) (by omega)]

/-- Whole milliseconds of a quotient in microseconds: dividing
`a * 1000 / f` by 1000 yields `a / f`. -/
theorem ediv_thousand (a f : Int) (hf : 0 < f) : a * 1000 / f / 1000 = a / f := by
  have hsplit : a * 1000 = a % f * 1000 + a / f * 1000 * f := by
    have := Int.emod_add_ediv a f
    nlinarith
  have hr0 : 0 ≤ a % f := Int.emod_nonneg a (by omega)
  have hr1 : a % f < f := Int.emod_lt_of_pos a hf
  have hx0 : 0 ≤ a % f * 1000 / f := Int.ediv_nonneg (by omega) (le_of_lt hf)
  have hx1 : a % f * 1000 / f < 1000 := Int.ediv_lt_of_lt_mul hf (by nlinarith)
  rw [hsplit, Int.add_mul_ediv_right _ _ (by omega)]
  omega

/-- The assembled command of an invocation with at least two tokens either
does not exist, or its launch fails, or its launch succeeds. -/
theorem main_cases (P : Platform) (argv : List String) (h : 2 ≤ argv.length) :
    ((assembleCommand argv).Command = none ∧
      main P argv = { trace := SetupConsole, exitCode := none }) ∨
    (∃ Command, (assembleCommand argv).Command = some Command ∧
      P.CreateProcessA Command = false ∧
      main P argv =
        { trace := SetupConsole ++
            [ Effect.SetConsoleTitleA Command, Effect.CreateProcessA Command,
              Effect.GetLastError,
              Effect.printf (launchFailureText Command P.GetLastError),
              Effect._getch ],
          exitCode := some (-1) }) ∨
    (∃ Command, (assembleCommand argv).Command = some Command ∧
      P.CreateProcessA Command = true ∧
      main P argv =
        { trace := SetupConsole ++
            [Effect.SetConsoleTitleA Command, Effect.CreateProcessA Command] ++
            superviseChild P,
          exitCode := some 0 }) := by
  cases hc : (assembleCommand argv).Command with
  | none => exact Or.inl ⟨rfl, main_terminated P argv h hc⟩
  | some Command =>
    cases hs : P.CreateProcessA Command with
    | false => exact Or.inr (Or.inl ⟨Command, rfl, hs, main_launch_failure P argv Command h hc hs⟩)
    | true => exact Or.inr (Or.inr ⟨Command, rfl, hs, main_success P argv Command h hc hs⟩)

theorem usageText_head (argv : List String) : (usageText argv).data.head? = some '用' := by
  simp [usageText, String.data_append]

/-- Everything an invocation with at least two tokens prints starts with a
line feed. -/
theorem printf_head_of_two_tokens (P : Platform) (argv : List String) (h : 2 ≤ argv.length)
    (text : String) (hmem : Effect.printf text ∈ (main P argv).trace) :
    text.data.head? = some '\n' := by
  rcases main_cases P argv h with ⟨-, hm⟩ | ⟨Command, -, -, hm⟩ | ⟨Command, -, -, hm⟩
  · rw [hm] at hmem
    simp [SetupConsole] at hmem
  · rw [hm] at hmem
    simp only [SetupConsole, List.cons_append, List.nil_append, List.mem_cons, reduceCtorEq,
      Effect.printf.injEq, List.mem_singleton, false_or, or_false, List.not_mem_nil] at hmem
    subst hmem
    simp [launchFailureText, String.data_append]
  · rw [hm] at hmem
    simp only [SetupConsole, superviseChild, List.cons_append, List.nil_append, List.mem_cons,
      reduceCtorEq, Effect.printf.injEq, List.mem_singleton, false_or, or_false,
      List.not_mem_nil] at hmem
    rcases hmem with rfl | rfl | rfl | rfl | rfl
    · decide
    · simp [executionTimeLine, String.data_append]
    · simp [peakMemoryLine, String.data_append]
    · simp [returnValueLine, String.data_append]
    · decide

/-! ## Command-line assembly (claims C1, C10) -/

theorem longToken_length : longToken.length = 520 :=
  List.length_replicate 520 'a'

/-- C1, as stated, fails for a token of 520 `CHAR`s: the bounded copy finds
the buffer too small, no command is assembled, and the run ends inside the
CRT before any launch. -/
theorem C1_counterexample_long_token :
    (assembleCommand ["ConsolePauser.exe", longToken]).Command ≠
        some (joinWithSpaces [longToken]) ∧
      main samplePlatform ["ConsolePauser.exe", longToken] =
        { trace := SetupConsole, exitCode := none } := by
  have hc := assembleCommand_overflow "ConsolePauser.exe" longToken []
    (by simp [joinWithSpaces, longToken_length, MAX_PATH])
  exact ⟨by rw [hc]; simp, main_terminated _ _ (by simp) hc⟩

/-- C1, amended: for every non-empty sequence of argument tokens whose joined
string fits the buffer (at most 519 `CHAR`s), the command that `main`
assembles, shows as console title and hands to `CreateProcessA` is exactly
`t1 + " " + t2 + ... + " " + tn`: the tokens unchanged, in order, one space
between adjacent tokens and nothing else added. -/
theorem C1_command_is_joined_tokens (P : Platform) (a0 t : String) (ts : List String)
    (h : (joinWithSpaces (t :: ts)).length ≤ 519) :
    (assembleCommand (a0 :: t :: ts)).Command = some (joinWithSpaces (t :: ts)) ∧
      ∃ rest, (main P (a0 :: t :: ts)).trace =
        SetupConsole ++
          [ Effect.SetConsoleTitleA (joinWithSpaces (t :: ts)),
            Effect.CreateProcessA (joinWithSpaces (t :: ts)) ] ++ rest := by
  have hfit : (joinWithSpaces (t :: ts)).length < MAX_PATH * 2 := by
    simp only [MAX_PATH]; omega
  have hc := (assembleCommand_fits a0 t ts hfit).1
  refine ⟨hc, ?_⟩
  have hargc : 2 ≤ (a0 :: t :: ts).length := by simp
  cases hs : P.CreateProcessA (joinWithSpaces (t :: ts)) with
  | false =>
    rw [main_launch_failure P _ _ hargc hc hs]
    exact ⟨[Effect.GetLastError,
      Effect.printf (launchFailureText (joinWithSpaces (t :: ts)) P.GetLastError),
      Effect._getch], by simp⟩
  | true =>
    rw [main_success P _ _ hargc hc hs]
    exact ⟨superviseChild P, rfl⟩

/-- C1, amended, at the arguments `a.exe x "y z"`. -/
theorem C1_command_is_joined_tokens_witness :
    (joinWithSpaces ["a.exe", "x", "y z"]).length ≤ 519 ∧
      ((assembleCommand ["ConsolePauser.exe", "a.exe", "x", "y z"]).Command =
          some (joinWithSpaces ["a.exe", "x", "y z"]) ∧
        ∃ rest, (main samplePlatform ["ConsolePauser.exe", "a.exe", "x", "y z"]).trace =
          SetupConsole ++
            [ Effect.SetConsoleTitleA (joinWithSpaces ["a.exe", "x", "y z"]),
              Effect.CreateProcessA (joinWithSpaces ["a.exe", "x", "y z"]) ] ++ rest) :=
  ⟨by decide,
    C1_command_is_joined_tokens samplePlatform "ConsolePauser.exe" "a.exe" ["x", "y z"]
      (by decide)⟩

/-- C10: command assembly into the buffer of `MAX_PATH * 2 = 520` `CHAR`s
succeeds exactly when the joined string fits with its terminator.  The joined
length is the sum of the token lengths plus `n - 1` spaces; when it is at most
519, each of the `2n - 1` bounded calls succeeds, the buffer ends holding the
whole joined string, and its content is shorter than 520 after every call;
when it is 520 or more, one of the bounded calls finds the buffer too small
and no command results. -/
theorem C10_buffer_capacity (a0 t : String) (ts : List String) :
    MAX_PATH * 2 = 520 ∧
    (joinWithSpaces (t :: ts)).length = joinedLength (t :: ts) ∧
    (joinedLength (t :: ts) ≤ 519 →
      (assembleCommand (a0 :: t :: ts)).Command = some (joinWithSpaces (t :: ts)) ∧
      (assembleCommand (a0 :: t :: ts)).history.length = 2 * (t :: ts).length - 1 ∧
      ∀ b ∈ (assembleCommand (a0 :: t :: ts)).history, b.length < 520) ∧
    (520 ≤ joinedLength (t :: ts) →
      (assembleCommand (a0 :: t :: ts)).Command = none) := by
  refine ⟨rfl, length_joinWithSpaces t ts, ?_, ?_⟩
  · intro h
    rw [← length_joinWithSpaces] at h
    have hfit : (joinWithSpaces (t :: ts)).length < MAX_PATH * 2 := by
      simp only [MAX_PATH]; omega
    obtain ⟨hc, hl, hb⟩ := assembleCommand_fits a0 t ts hfit
    refine ⟨hc, ?_, ?_⟩
    · rw [hl]; simp only [List.length_cons]; omega
    · intro b hmem
      have := hb b hmem
      simp only [MAX_PATH] at this
      omega
  · intro h
    rw [← length_joinWithSpaces] at h
    apply assembleCommand_overflow
    simp only [MAX_PATH]; omega

/-- C10 at the arguments `a.exe x "y z"`, whose joined length is 11. -/
theorem C10_buffer_capacity_witness :
    joinedLength ["a.exe", "x", "y z"] = 11 ∧
      (assembleCommand ["ConsolePauser.exe", "a.exe", "x", "y z"]).Command =
        some "a.exe x y z" ∧
      (assembleCommand ["ConsolePauser.exe", "a.exe", "x", "y z"]).history.length = 5 :=
  ⟨by decide,
    ((C10_buffer_capacity "ConsolePauser.exe" "a.exe" ["x", "y z"]).2.2.1 (by decide)).1,
    ((C10_buffer_capacity "ConsolePauser.exe" "a.exe" ["x", "y z"]).2.2.1 (by decide)).2.1⟩

/-! ## Usage error and launch (claims C2, C3) -/

/-- C2, as stated, fails for an invocation with two tokens whose second token
has 520 `CHAR`s: `argc >= 2`, yet no launch is attempted. -/
theorem C2_counterexample_no_launch :
    2 ≤ ["ConsolePauser.exe", longToken].length ∧
      ∀ c, Effect.CreateProcessA c ∉
        (main samplePlatform ["ConsolePauser.exe", longToken]).trace := by
  have hc := assembleCommand_overflow "ConsolePauser.exe" longToken []
    (by simp [joinWithSpaces, longToken_length, MAX_PATH])
  refine ⟨by simp, ?_⟩
  intro c
  rw [main_terminated samplePlatform _ (by simp) hc]
  simp [SetupConsole]

/-- C2, amended: an invocation with fewer than two tokens returns -1 after
printing the usage text, which contains `argv[0]`, and waiting for a key; it
performs nothing else (no title, launch, wait, query or handle release).  An
invocation with two or more tokens prints no usage text, and attempts the
launch of the joined command when that command fits the buffer (at most 519
`CHAR`s); with a longer command no launch is attempted. -/
theorem C2_usage_or_launch (P : Platform) (argv : List String) :
    (argv.length < 2 →
      main P argv =
        { trace := [ Effect.SetConsoleOutputCP 65001, Effect.SetConsoleCP 65001,
                     Effect.printf (usageText argv), Effect._getch ],
          exitCode := some (-1) } ∧
      ∀ name rest, argv = name :: rest →
        ∃ before after, usageText argv = before ++ name ++ after) ∧
    (2 ≤ argv.length →
      (∀ anyArgv, Effect.printf (usageText anyArgv) ∉ (main P argv).trace) ∧
      ((joinWithSpaces argv.tail).length ≤ 519 →
        Effect.CreateProcessA (joinWithSpaces argv.tail) ∈ (main P argv).trace) ∧
      (520 ≤ (joinWithSpaces argv.tail).length →
        ∀ c, Effect.CreateProcessA c ∉ (main P argv).trace)) := by
  constructor
  · intro h
    refine ⟨by rw [main_usage P argv h]; rfl, ?_⟩
    intro name rest hargv
    subst hargv
    exact ⟨"用法：\n", " <文件名> <参数>\n请按任意键继续...", by simp [usageText, String.append_assoc]⟩
  · intro h
    refine ⟨?_, ?_, ?_⟩
    · intro anyArgv hmem
      have h1 := printf_head_of_two_tokens P argv h _ hmem
      rw [usageText_head] at h1
      revert h1
      decide
    · intro hfit
      match argv, h with
      | a0 :: t :: ts, _ =>
        obtain ⟨-, rest, hrest⟩ := show _ ∧ ∃ rest, (main P (a0 :: t :: ts)).trace =
            SetupConsole ++
              [ Effect.SetConsoleTitleA (joinWithSpaces (t :: ts)),
                Effect.CreateProcessA (joinWithSpaces (t :: ts)) ] ++ rest from by
          have hfit2 : (joinWithSpaces (t :: ts)).length < MAX_PATH * 2 := by
            simp only [List.tail_cons] at hfit
            simp only [MAX_PATH]; omega
          have hc := (assembleCommand_fits a0 t ts hfit2).1
          refine ⟨hc, ?_⟩
          cases hs : P.CreateProcessA (joinWithSpaces (t :: ts)) with
          | false =>
            rw [main_launch_failure P _ _ (by simp) hc hs]
            exact ⟨_, by simp; rfl⟩
          | true =>
            rw [main_success P _ _ (by simp) hc hs]
            exact ⟨superviseChild P, rfl⟩
        rw [hrest]
        simp
    · intro hlong c
      match argv, h with
      | a0 :: t :: ts, h =>
        have hc := assembleCommand_overflow a0 t ts (by
          simp only [List.tail_cons] at hlong
          simp only [MAX_PATH]; omega)
        rw [main_terminated P _ h hc]
        simp [SetupConsole]

/-- C2, amended, at the invocation with the single token `ConsolePauser.exe`
and at the invocation `ConsolePauser.exe a.exe`. -/
theorem C2_usage_or_launch_witness :
    ["ConsolePauser.exe"].length < 2 ∧
      main samplePlatform ["ConsolePauser.exe"] =
        { trace := [ Effect.SetConsoleOutputCP 65001, Effect.SetConsoleCP 65001,
                     Effect.printf (usageText ["ConsolePauser.exe"]), Effect._getch ],
          exitCode := some (-1) } ∧
      Effect.CreateProcessA (joinWithSpaces ["ConsolePauser.exe", "a.exe"].tail) ∈
        (main samplePlatform ["ConsolePauser.exe", "a.exe"]).trace :=
  ⟨by decide,
    ((C2_usage_or_launch samplePlatform ["ConsolePauser.exe"]).1 (by decide)).1,
    ((C2_usage_or_launch samplePlatform ["ConsolePauser.exe", "a.exe"]).2 (by decide)).2.1
      (by decide)⟩

/-- C3 at the error code `0x80070002 = 2147942402`: the rejected launch
returns -1 and prints the attempted command, but `%d` prints the `DWORD`
error code as the negative number -2147024894. -/
theorem C3_error_code_printed_signed :
    main (rejectingPlatform 2147942402) ["ConsolePauser.exe", "missing.exe"] =
      { trace := [ Effect.SetConsoleOutputCP 65001, Effect.SetConsoleCP 65001,
                   Effect.SetConsoleTitleA "missing.exe",
                   Effect.CreateProcessA "missing.exe",
                   Effect.GetLastError,
                   Effect.printf
                     "\n无法启动进程：missing.exe\n错误代码: -2147024894\n请按任意键继续...",
                   Effect._getch ],
        exitCode := some (-1) } := by
  decide

/-- A rejected launch with an error code below `2^31`: `main` returns -1
after printing the attempted command and the decimal numeral of the error
code and waiting for a key, without any wait, query or handle release. -/
theorem launch_failure_report (P : Platform) (argv : List String) (Command : String)
    (h : 2 ≤ argv.length) (hc : (assembleCommand argv).Command = some Command)
    (hf : P.CreateProcessA Command = false) (he : P.GetLastError < 2147483648) :
    ∃ numeral : String, IsNumeralOf 10 numeral P.GetLastError ∧
      main P argv =
        { trace := [ Effect.SetConsoleOutputCP 65001, Effect.SetConsoleCP 65001,
                     Effect.SetConsoleTitleA Command, Effect.CreateProcessA Command,
                     Effect.GetLastError,
                     Effect.printf ("\n无法启动进程：" ++ Command ++ "\n错误代码: " ++ numeral ++
                       "\n请按任意键继续..."),
                     Effect._getch ],
          exitCode := some (-1) } := by
  have hmod : P.GetLastError % DWORD_RANGE = P.GetLastError :=
    Nat.mod_eq_of_lt (by simp only [DWORD_RANGE]; omega)
  refine ⟨String.mk (Nat.toDigits 10 P.GetLastError), isNumeralOf_decimal _, ?_⟩
  rw [main_launch_failure P argv Command h hc hf]
  simp [SetupConsole, launchFailureText, fmt_d, hmod, he]

/-! ## The report of a successful run (claims C4, C5, C6) -/

theorem mem_superviseChild_of_mem (P : Platform) (argv : List String) (Command : String)
    (h : 2 ≤ argv.length) (hc : (assembleCommand argv).Command = some Command)
    (hs : P.CreateProcessA Command = true) (e : Effect) (he : e ∈ superviseChild P) :
    e ∈ (main P argv).trace := by
  rw [main_success P argv Command h hc hs]
  exact List.mem_append_right _ he

/-- C4: after a successful run with child exit code `N` (a 32-bit value),
the exit-code line of the report is the decimal numeral of `N`, followed by
the hexadecimal numeral of `N` in parentheses after `0x`, both without
padding; for `N = 5` the two numerals are `5` and `5`, so the line shows `5`
and `0x5`. -/
theorem C4_exit_code_line (P : Platform) (argv : List String) (Command : String) (N : Nat)
    (hargc : 2 ≤ argv.length) (hc : (assembleCommand argv).Command = some Command)
    (hs : P.CreateProcessA Command = true) (hq : P.GetExitCodeProcess = some N)
    (hN : N < 4294967296) :
    ∃ dec hex : String,
      Effect.printf ("\n程序返回值：" ++ dec ++ " (0x" ++ hex ++ ")") ∈ (main P argv).trace ∧
      IsNumeralOf 10 dec N ∧ IsNumeralOf 16 hex N ∧
      (N = 5 → dec = "5" ∧ hex = "5") := by
  have hmod : N % DWORD_RANGE = N := Nat.mod_eq_of_lt (by simp only [DWORD_RANGE]; omega)
  refine ⟨String.mk (Nat.toDigits 10 N), String.mk ((Nat.toDigits 16 N).map Char.toUpper), ?_,
    isNumeralOf_decimal N, isNumeralOf_hexadecimal N, ?_⟩
  · apply mem_superviseChild_of_mem P argv Command hargc hc hs
    simp [superviseChild, hq, returnValueLine, fmt_u, fmt_X, hmod]
  · intro h5
    subst h5
    decide

/-- C4 for a child that returns 5. -/
theorem C4_exit_code_line_witness :
    ∃ dec hex : String,
      Effect.printf ("\n程序返回值：" ++ dec ++ " (0x" ++ hex ++ ")") ∈
        (main (platformReturning 5) ["ConsolePauser.exe", "a.exe"]).trace ∧
      IsNumeralOf 10 dec 5 ∧ IsNumeralOf 16 hex 5 ∧ ((5 : Nat) = 5 → dec = "5" ∧ hex = "5") :=
  C4_exit_code_line (platformReturning 5) ["ConsolePauser.exe", "a.exe"] "a.exe" 5
    (by decide) (by decide) (by decide) (by decide) (by decide)

/-- C5: a run whose child was launched returns 0 whatever the exit-code query
yields; two runs that differ only in the child's exit code both return 0, and
their traces differ only in the exit-code line of the report. -/
theorem C5_exit_code_not_propagated (P : Platform) (argv : List String) (Command : String)
    (N M : Nat) (hargc : 2 ≤ argv.length)
    (hc : (assembleCommand argv).Command = some Command)
    (hs : P.CreateProcessA Command = true) :
    (main P argv).exitCode = some 0 ∧
    (main (withExitCode P N) argv).exitCode = some 0 ∧
    (main (withExitCode P M) argv).exitCode = some 0 ∧
    ∃ before after : List Effect,
      (main (withExitCode P N) argv).trace =
        before ++ [Effect.printf (returnValueLine N)] ++ after ∧
      (main (withExitCode P M) argv).trace =
        before ++ [Effect.printf (returnValueLine M)] ++ after := by
  refine ⟨by rw [main_success P argv Command hargc hc hs], ?_, ?_, ?_⟩
  · rw [main_success (withExitCode P N) argv Command hargc hc hs]
  · rw [main_success (withExitCode P M) argv Command hargc hc hs]
  · rw [main_success (withExitCode P N) argv Command hargc hc hs,
      main_success (withExitCode P M) argv Command hargc hc hs]
    exact ⟨SetupConsole ++ [Effect.SetConsoleTitleA Command, Effect.CreateProcessA Command] ++
        [ Effect.QueryPerformanceFrequency, Effect.QueryPerformanceCounter,
          Effect.WaitForSingleObject Handle.hProcess, Effect.QueryPerformanceCounter,
          Effect.GetProcessMemoryInfo Handle.hProcess,
          Effect.GetExitCodeProcess Handle.hProcess,
          Effect.CloseHandle Handle.hProcess, Effect.CloseHandle Handle.hThread,
          Effect.printf "\n-----------------------------------------------",
          Effect.printf (executionTimeLine (ExecutionTime P.StartingTime P.EndingTime P.Frequency)),
          Effect.printf (peakMemoryLine (P.GetProcessMemoryInfo.getD 0)) ],
      [Effect.printf "\n请按任意键继续...", Effect._getch],
      by simp [superviseChild, withExitCode], by simp [superviseChild, withExitCode]⟩

/-- C5 for children that return 0 and 3. -/
theorem C5_exit_code_not_propagated_witness :
    (main samplePlatform ["ConsolePauser.exe", "a.exe"]).exitCode = some 0 ∧
    (main (withExitCode samplePlatform 0)
      ["ConsolePauser.exe", "a.exe"]).exitCode = some 0 ∧
    (main (withExitCode samplePlatform 3)
      ["ConsolePauser.exe", "a.exe"]).exitCode = some 0 ∧
    ∃ before after : List Effect,
      (main (withExitCode samplePlatform 0)
        ["ConsolePauser.exe", "a.exe"]).trace =
        before ++ [Effect.printf (returnValueLine 0)] ++ after ∧
      (main (withExitCode samplePlatform 3)
        ["ConsolePauser.exe", "a.exe"]).trace =
        before ++ [Effect.printf (returnValueLine 3)] ++ after :=
  C5_exit_code_not_propagated samplePlatform ["ConsolePauser.exe", "a.exe"] "a.exe" 0 3
    (by decide) (by decide) (by decide)

/-- C6: on the usage-error path and on every path with an assembled command
(launch failure, successful run) `main` returns, and every run in which
`main` returns performs exactly one key-press wait, as its last effect. -/
theorem C6_key_press_is_last (P : Platform) (argv : List String) :
    ((argv.length < 2 ∨ ∃ Command, (assembleCommand argv).Command = some Command) →
      ∃ code, (main P argv).exitCode = some code) ∧
    (∀ code, (main P argv).exitCode = some code →
      ∃ before, (main P argv).trace = before ++ [Effect._getch] ∧ Effect._getch ∉ before) := by
  by_cases h : argv.length < 2
  · rw [main_usage P argv h]
    exact ⟨fun _ => ⟨-1, rfl⟩, fun _ _ =>
      ⟨SetupConsole ++ [Effect.printf (usageText argv)], by simp, by simp [SetupConsole]⟩⟩
  · have h2 : 2 ≤ argv.length := by omega
    rcases main_cases P argv h2 with ⟨hc, hm⟩ | ⟨Command, -, -, hm⟩ | ⟨Command, -, -, hm⟩
    · rw [hm]
      refine ⟨?_, fun code hcode => by simp at hcode⟩
      rintro (h' | ⟨Command, h'⟩)
      · omega
      · rw [hc] at h'; simp at h'
    · rw [hm]
      exact ⟨fun _ => ⟨-1, rfl⟩, fun _ _ =>
        ⟨SetupConsole ++ [ Effect.SetConsoleTitleA Command, Effect.CreateProcessA Command,
            Effect.GetLastError, Effect.printf (launchFailureText Command P.GetLastError) ],
          by simp, by simp [SetupConsole]⟩⟩
    · rw [hm]
      exact ⟨fun _ => ⟨0, rfl⟩, fun _ _ =>
        ⟨SetupConsole ++ [Effect.SetConsoleTitleA Command, Effect.CreateProcessA Command] ++
          (superviseChild P).dropLast, by simp [superviseChild],
          by simp [SetupConsole, superviseChild]⟩⟩

/-- C6 at a successful run, which returns 0. -/
theorem C6_key_press_is_last_witness :
    (main samplePlatform ["ConsolePauser.exe", "a.exe"]).exitCode = some 0 ∧
      ∃ before, (main samplePlatform ["ConsolePauser.exe", "a.exe"]).trace =
        before ++ [Effect._getch] ∧ Effect._getch ∉ before :=
  ⟨by decide,
    (C6_key_press_is_last samplePlatform ["ConsolePauser.exe", "a.exe"]).2 0 (by decide)⟩

/-! ## Elapsed time and peak memory (claims C7, C8, C9) -/

/-- C7, as stated, fails when the tick difference times 1 000 000 leaves the
`LONGLONG` range: with a 10 MHz counter and a child that ran for
9 223 372 036 855 ticks (more than 200 ms), the product wraps around and the
elapsed time computed and reported is negative. -/
theorem C7_counterexample_overflow :
    (0 : Int) ≤ 9223372036855 ∧ (0 : Int) < 10000000 ∧
    (200 : Int) * 10000000 ≤ (9223372036855 - 0) * 1000 ∧
    ExecutionTime 0 9223372036855 10000000 = -922337203685 ∧
    Effect.printf "\n执行时间：-922337203.-685 ms" ∈
      (main (platformTiming 0 9223372036855) ["ConsolePauser.exe", "a.exe"]).trace := by
  decide

/-- C7, amended: for every start and end tick count with `end >= start` whose
difference times 1 000 000 fits a `LONGLONG`, and every positive counter
frequency, the elapsed time that `main` computes is the quotient
`(end - start) * 1000000 / frequency` in microseconds; it is non-negative and
non-decreasing in `end - start`, and when the tick difference corresponds to
at least 200 ms the reported number of milliseconds is at least 200. -/
theorem C7_elapsed_time_monotone (s e f : Int) (hse : s ≤ e)
    (hfit : (e - s) * 1000000 < 9223372036854775808) (hf : 0 < f) :
    ExecutionTime s e f = (e - s) * 1000000 / f ∧
    0 ≤ ExecutionTime s e f ∧
    (∀ s2 e2 : Int, s2 ≤ e2 → (e2 - s2) * 1000000 < 9223372036854775808 →
      e - s ≤ e2 - s2 → ExecutionTime s e f ≤ ExecutionTime s2 e2 f) ∧
    (200 * f ≤ (e - s) * 1000 → 200 ≤ Int.tdiv (ExecutionTime s e f) 1000) := by
  have hex := ExecutionTime_exact s e f hse hfit hf
  have hp : 0 ≤ (e - s) * 1000000 := by omega
  have h0 : 0 ≤ (e - s) * 1000000 / f := Int.ediv_nonneg hp (le_of_lt hf)
  refine ⟨hex, by rw [hex]; exact h0, ?_, ?_⟩
  · intro s2 e2 hse2 hfit2 hle
    rw [hex, ExecutionTime_exact s2 e2 f hse2 hfit2 hf]
    exact Int.ediv_le_ediv hf (by omega)
  · intro h200
    rw [hex, Int.tdiv_eq_ediv h0 (by decide)]
    have h1 : 200000 ≤ (e - s) * 1000000 / f := by
      apply (Int.le_ediv_iff_mul_le hf).mpr
      nlinarith
    omega

/-- C7, amended, at a 10 MHz counter and a child that ran for 2 000 000 ticks
(200 ms). -/
theorem C7_elapsed_time_monotone_witness :
    (0 : Int) ≤ 2000000 ∧ ((2000000 : Int) - 0) * 1000000 < 9223372036854775808 ∧
    (0 : Int) < 10000000 ∧
    (ExecutionTime 0 2000000 10000000 = (2000000 - 0) * 1000000 / 10000000 ∧
    0 ≤ ExecutionTime 0 2000000 10000000 ∧
    (∀ s2 e2 : Int, s2 ≤ e2 → (e2 - s2) * 1000000 < 9223372036854775808 →
      2000000 - 0 ≤ e2 - s2 →
      ExecutionTime 0 2000000 10000000 ≤ ExecutionTime s2 e2 10000000) ∧
    (200 * 10000000 ≤ ((2000000 : Int) - 0) * 1000 →
      200 ≤ Int.tdiv (ExecutionTime 0 2000000 10000000) 1000)) :=
  ⟨by decide, by decide, by decide,
    C7_elapsed_time_monotone 0 2000000 10000000 (by decide) (by decide) (by decide)⟩

/-- C8, as stated, fails for a child that ran for exactly one second: the
report shows `1000.000 ms`, the number before the dot being the 1000 whole
milliseconds, whereas the whole seconds and remaining milliseconds would read
`1.000`. -/
theorem C8_counterexample_one_second :
    ExecutionTime 0 10000000 10000000 = 1000000 ∧
    Effect.printf "\n执行时间：1000.000 ms" ∈
      (main (platformTiming 0 10000000) ["ConsolePauser.exe", "a.exe"]).trace ∧
    secondsDotMilliseconds 1000000 = "1.000" ∧
    executionTimeLine 1000000 ≠ "\n执行时间：" ++ secondsDotMilliseconds 1000000 ++ " ms" := by
  decide

/-- C8, amended: the report renders the elapsed time as
milliseconds.microseconds followed by ` ms`: for every non-negative elapsed
time, the numeral printed before the dot is the number of whole elapsed
milliseconds and the fraction after the dot is the remaining microseconds in
exactly three digits; when the tick difference times 1 000 000 fits a
`LONGLONG`, the whole milliseconds are `(end - start) * 1000 / frequency`. -/
theorem C8_milliseconds_dot_microseconds (P : Platform) (argv : List String)
    (Command : String) (hargc : 2 ≤ argv.length)
    (hc : (assembleCommand argv).Command = some Command)
    (hs : P.CreateProcessA Command = true)
    (hT : 0 ≤ ExecutionTime P.StartingTime P.EndingTime P.Frequency) :
    ∃ whole fraction : String,
      Effect.printf ("\n执行时间：" ++ whole ++ "." ++ fraction ++ " ms") ∈ (main P argv).trace ∧
      IsNumeralOf 10 whole
        (ExecutionTime P.StartingTime P.EndingTime P.Frequency / 1000).toNat ∧
      fraction.length = 3 ∧ (∀ c ∈ fraction.data, IsDigit 10 c) ∧
      (readNumeral 10 fraction : Int) =
        ExecutionTime P.StartingTime P.EndingTime P.Frequency % 1000 ∧
      (P.StartingTime ≤ P.EndingTime →
        (P.EndingTime - P.StartingTime) * 1000000 < 9223372036854775808 →
        ExecutionTime P.StartingTime P.EndingTime P.Frequency / 1000 =
          (P.EndingTime - P.StartingTime) * 1000 / P.Frequency) := by
  generalize hET : ExecutionTime P.StartingTime P.EndingTime P.Frequency = T at hT
  have hm0 : 0 ≤ T % 1000 := Int.emod_nonneg T (by decide)
  have hm1 : T % 1000 < 1000 := Int.emod_lt_of_pos T (by decide)
  have hk : (T % 1000).toNat < 1000 := by omega
  have hcast : (((T % 1000).toNat : Nat) : Int) = T % 1000 := Int.toNat_of_nonneg hm0
  obtain ⟨hlen, hdig, hread⟩ := fmt_03lld_three_digits (T % 1000).toNat hk
  rw [hcast] at hlen hdig hread
  have hq0 : 0 ≤ T / 1000 := Int.ediv_nonneg hT (by decide)
  refine ⟨String.mk (Nat.toDigits 10 (T / 1000).toNat), fmt_03lld (T % 1000), ?_,
    isNumeralOf_decimal _, hlen, hdig, by rw [hread]; exact hcast, ?_⟩
  · apply mem_superviseChild_of_mem P argv Command hargc hc hs
    simp [superviseChild, hET, executionTimeLine, fmt_lld, Int.tdiv_eq_ediv hT,
      Int.tmod_eq_emod hT, hq0]
  · intro hse hfit
    have h1 : (P.EndingTime - P.StartingTime) * 1000000 =
        (P.EndingTime - P.StartingTime) * 1000 * 1000 := by ring
    rw [← hET, ExecutionTime_exact _ _ _ hse hfit P.Frequency_pos, h1]
    exact ediv_thousand _ _ P.Frequency_pos

/-- C8, amended, at a child that ran for 123.456 ms. -/
theorem C8_milliseconds_dot_microseconds_witness :
    0 ≤ ExecutionTime samplePlatform.StartingTime samplePlatform.EndingTime
      samplePlatform.Frequency ∧
    ∃ whole fraction : String,
      Effect.printf ("\n执行时间：" ++ whole ++ "." ++ fraction ++ " ms") ∈
        (main samplePlatform ["ConsolePauser.exe", "a.exe"]).trace ∧
      IsNumeralOf 10 whole
        (ExecutionTime samplePlatform.StartingTime samplePlatform.EndingTime
          samplePlatform.Frequency / 1000).toNat ∧
      fraction.length = 3 ∧ (∀ c ∈ fraction.data, IsDigit 10 c) ∧
      (readNumeral 10 fraction : Int) =
        ExecutionTime samplePlatform.StartingTime samplePlatform.EndingTime
          samplePlatform.Frequency % 1000 ∧
      (samplePlatform.StartingTime ≤ samplePlatform.EndingTime →
        (samplePlatform.EndingTime - samplePlatform.StartingTime) * 1000000 <
          9223372036854775808 →
        ExecutionTime samplePlatform.StartingTime samplePlatform.EndingTime
            samplePlatform.Frequency / 1000 =
          (samplePlatform.EndingTime - samplePlatform.StartingTime) * 1000 /
            samplePlatform.Frequency) :=
  ⟨by decide,
    C8_milliseconds_dot_microseconds samplePlatform ["ConsolePauser.exe", "a.exe"] "a.exe"
      (by decide) (by decide) (by decide) (by decide)⟩

/-- C9, as stated, fails for a peak working set of `2^42` bytes (4 TiB, a
value of the 64-bit `SIZE_T`): the cast to `unsigned` keeps the low 32 bits
of the 4 294 967 296 kilobytes and the report shows `0 KB`. -/
theorem C9_counterexample_four_tebibytes :
    (4398046511104 : Nat) / 1024 = 4294967296 ∧
    Effect.printf "\n峰值内存使用：0 KB" ∈
      (main (platformPeak 4398046511104) ["ConsolePauser.exe", "a.exe"]).trace := by
  decide

/-- C9, amended: for every peak working-set size of `b` bytes returned by
the platform whose number of kilobytes `floor(b / 1024)` fits an `unsigned`
(is below `2^32`), the peak-memory figure printed in the report is the decimal
numeral of `floor(b / 1024)`. -/
theorem C9_peak_memory_kilobytes (P : Platform) (argv : List String) (Command : String)
    (b : Nat) (hargc : 2 ≤ argv.length)
    (hc : (assembleCommand argv).Command = some Command)
    (hs : P.CreateProcessA Command = true) (hq : P.GetProcessMemoryInfo = some b)
    (hb : b / 1024 < 4294967296) :
    ∃ kilobytes : String,
      Effect.printf ("\n峰值内存使用：" ++ kilobytes ++ " KB") ∈ (main P argv).trace ∧
      IsNumeralOf 10 kilobytes (b / 1024) := by
  have hshift : b >>> 10 = b / 1024 := by rw [Nat.shiftRight_eq_div_pow]
  have hmod : b / 1024 % DWORD_RANGE = b / 1024 :=
    Nat.mod_eq_of_lt (by simp only [DWORD_RANGE]; omega)
  refine ⟨String.mk (Nat.toDigits 10 (b / 1024)), ?_, isNumeralOf_decimal _⟩
  apply mem_superviseChild_of_mem P argv Command hargc hc hs
  simp [superviseChild, hq, peakMemoryLine, fmt_u, hshift, hmod]

/-- C9, amended, at a child with a peak working set of 5 000 000 bytes. -/
theorem C9_peak_memory_kilobytes_witness :
    (5000000 : Nat) / 1024 < 4294967296 ∧
    ∃ kilobytes : String,
      Effect.printf ("\n峰值内存使用：" ++ kilobytes ++ " KB") ∈
        (main samplePlatform ["ConsolePauser.exe", "a.exe"]).trace ∧
      IsNumeralOf 10 kilobytes (5000000 / 1024) :=
  ⟨by decide,
    C9_peak_memory_kilobytes samplePlatform ["ConsolePauser.exe", "a.exe"] "a.exe" 5000000
      (by decide) (by decide) (by decide) (by decide) (by decide)⟩

end ConsolePauser
